import Mathlib

/-!
Shallow embedding of the Videoflix backend's HLS transcode / thumbnail job
(`content_app/tasks.py`) and the HLS serving helpers (`content_app/api/views.py`).

Paths are Python `str` values, modelled as Lean `String`.  The helpers
`pyBasename`, `pyDirname`, `pyStem`, `pyJoin` model CPython's `posixpath`
functions `os.path.basename`, `os.path.dirname`,
`os.path.splitext(...)[0]` and binary `os.path.join` (sep = '/').

Subprocess execution is modelled by an oracle `run : List String → SubprocessResult`
mapping a command token list to the completed process's exit code and captured
output streams; `subprocess.run(cmd, capture_output=True, text=True)` becomes
`run cmd`.  The filesystem's set of existing directories is a `List String`;
`os.makedirs(p, exist_ok=True)` inserts `p` when absent and is a no-op when
present (ancestor creation is not tracked: in the embedded code every parent
of a created directory either pre-exists or was created by the preceding call).
-/

/-- Model of `os.path.basename` on POSIX: `p[p.rfind('/') + 1:]`, i.e. the maximal
slash-free suffix of `p`. -/
def pyBasename (p : String) : String :=
  ⟨(p.data.reverse.takeWhile (· ≠ '/')).reverse⟩

/-- Model of `os.path.dirname` on POSIX: `head = p[:p.rfind('/') + 1]`; if `head` is
nonempty and not all slashes it is right-stripped of slashes. -/
def pyDirname (p : String) : String :=
  let headRev := p.data.reverse.dropWhile (· ≠ '/')
  if headRev = [] ∨ headRev.all (· = '/') then ⟨headRev.reverse⟩
  else ⟨(headRev.dropWhile (· = '/')).reverse⟩

/-- The root part of `posixpath.splitext` applied to a slash-free name: split
at the last `'.'` provided some character strictly between the start of the
name and that dot is not a dot (so `.bashrc` and `..` keep no extension). -/
def pyStemName (n : List Char) : List Char :=
  match n.reverse.dropWhile (· ≠ '.') with
  | [] => n
  | _ :: beforeRev =>
    if beforeRev.any (· ≠ '.') then beforeRev.reverse else n

/-- Model of `os.path.splitext(os.path.basename(p))[0]`: the source file's base name
with its extension stripped.  `basename p` contains no `'/'`, so the
slash-free splitext root applies. -/
def pyStem (p : String) : String :=
  ⟨pyStemName (pyBasename p).data⟩

/-- Python `s.startswith(t)`: `t` is a prefix of `s`. -/
def pyStartsWith (s t : String) : Bool :=
  t.data.isPrefixOf s.data

/-- Python `s.endswith(t)`: `t` is a suffix of `s`. -/
def pyEndsWith (s t : String) : Bool :=
  t.data.reverse.isPrefixOf s.data.reverse

/-- Python `s.strip()`: remove leading and trailing whitespace. -/
def pyStrip (s : String) : String :=
  ⟨(((s.data.dropWhile Char.isWhitespace).reverse.dropWhile
    Char.isWhitespace).reverse)⟩

/-- Binary `posixpath.join`: an absolute second component replaces the first;
otherwise the components are joined with `'/'` unless the first is empty or
already ends with `'/'`. -/
def pyJoin (a b : String) : String :=
  if pyStartsWith b "/" then b
  else if a = "" ∨ pyEndsWith a "/" then a ++ b
  else a ++ "/" ++ b

/-- The completed state of one `subprocess.run(cmd, capture_output=True,
text=True)` call: exit status plus captured textual output streams. -/
structure SubprocessResult where
  returncode : Int
  stdout : String
  stderr : String

/-- A subprocess oracle: what `subprocess.run` returns for each command. -/
def RunOracle := List String → SubprocessResult

/-- Model of `os.makedirs(p, exist_ok=True)` on the set of existing directories:
insert `p` when absent, no-op (and no error) when present. -/
def makedirs (fs : List String) (p : String) : List String :=
  if p ∈ fs then fs else p :: fs

/-- Python `s.lstrip("/")`: remove all leading `'/'` characters. -/
def pyLstripSlash (s : String) : String :=
  ⟨s.data.dropWhile (· = '/')⟩

/-- Python `s.rstrip("/")`: remove all trailing `'/'` characters. -/
def pyRstripSlash (s : String) : String :=
  ⟨(s.data.reverse.dropWhile (· = '/')).reverse⟩

/-- Python `s.replace("\x5c", "/")`: the pattern is a single character, so
this is a character map. -/
def pyReplaceBackslash (s : String) : String :=
  ⟨s.data.map (fun c => if c = '\x5c' then '/' else c)⟩

/-- Python `s.split('/')` on the character list. -/
def splitSlash : List Char → List (List Char)
  | [] => [[]]
  | c :: rest =>
    match splitSlash rest with
    | [] => [[]]
    | g :: gs => if c = '/' then [] :: g :: gs else (c :: g) :: gs

/-- The path components of `p`: split on `'/'` and drop empty parts, as
`posixpath.relpath` does after `abspath`.  For an absolute path with no
`"."`/`".."` components this agrees with `abspath` followed by the split. -/
def pyParts (p : String) : List String :=
  ((splitSlash p.data).map fun l => (⟨l⟩ : String)).filter (· ≠ "")

/-- Length of the longest common prefix of two component lists
(`genericpath.commonprefix` on lists). -/
def commonLen : List String → List String → Nat
  | a :: as, b :: bs => if a = b then commonLen as bs + 1 else 0
  | _, _ => 0

/-- Model of `'/'.join` on path components (what `posixpath.join(*parts)` produces for
nonempty relative components). -/
def joinWithSlash : List String → String
  | [] => ""
  | [x] => x
  | x :: xs => x ++ "/" ++ joinWithSlash xs

/-- Model of `posixpath.relpath(path, start)`, for absolute inputs free of
`"."`/`".."` components (so `abspath` only collapses slashes): pad with
`".."` for the uncommon part of `start`, then the uncommon part of `path`. -/
def pyRelpath (path start : String) : String :=
  let path_list := pyParts path
  let start_list := pyParts start
  let i := commonLen start_list path_list
  let rel_list := List.replicate (start_list.length - i) ".." ++ path_list.drop i
  if rel_list = [] then "." else joinWithSlash rel_list

/-- Embedding of `tasks._run_ffmpeg`: run the command; on a non-zero exit status raise
`RuntimeError(f"ffmpeg failed with code {returncode}: {stderr.strip()}")`,
modelled as `Except.error` carrying the message; on status 0 return `()`. -/
def runFfmpeg (run : RunOracle) (cmd : List String) : Except String Unit :=
  let result := run cmd
  if result.returncode ≠ 0 then
    .error ("ffmpeg failed with code " ++ toString result.returncode ++ ": "
      ++ pyStrip result.stderr)
  else
    .ok ()

/-- The ffprobe command issued by `tasks._has_audio`. -/
def probeCmd (source : String) : List String :=
  ["ffprobe", "-v", "error", "-select_streams", "a", "-show_entries",
   "stream=index", "-of", "csv=p=0", source]

/-- Embedding of `tasks._has_audio`: probe the source for audio streams with
`check=False`; the result is `returncode == 0 and bool(stdout.strip())`. -/
def hasAudio (run : RunOracle) (source : String) : Bool :=
  let probe := run (probeCmd source)
  probe.returncode == 0 && !(pyStrip probe.stdout == "")

/-- Embedding of `tasks._prepare_hls_dirs`: derive
`output_dir = join(dirname(source), splitext(basename(source))[0] + "_hls")`,
create it and the `480p`, `720p`, `1080p` subdirectories (`exist_ok=True`),
and return the updated directory set together with `output_dir`. -/
def prepareHlsDirs (fs : List String) (source : String) :
    List String × String :=
  let base_dir := pyDirname source
  let base_name := pyStem source
  let output_dir := pyJoin base_dir (base_name ++ "_hls")
  let fs1 := makedirs fs output_dir
  let fs2 := makedirs fs1 (pyJoin output_dir "480p")
  let fs3 := makedirs fs2 (pyJoin output_dir "720p")
  let fs4 := makedirs fs3 (pyJoin output_dir "1080p")
  (fs4, output_dir)

/-- Embedding of `tasks._hls_maps_and_audio`: `-map` tokens, the `-var_stream_map` value,
and extra audio-codec tokens, chosen by the audio flag. -/
def hlsMapsAndAudio (has_audio : Bool) :
    List String × String × List String :=
  if !has_audio then
    (["-map", "[v480out]", "-map", "[v720out]", "-map", "[v1080out]"],
     "v:0,name:480p v:1,name:720p v:2,name:1080p",
     [])
  else
    (["-map", "[v480out]", "-map", "0:a:0?", "-map", "[v720out]",
      "-map", "0:a:0?", "-map", "[v1080out]", "-map", "0:a:0?"],
     "v:0,a:0,name:480p v:1,a:1,name:720p v:2,a:2,name:1080p",
     ["-c:a", "aac", "-ar", "48000"])

/-- The split/scale filter graph used by `tasks._build_hls_cmd`. -/
def hlsFilter : String :=
  "[0:v]split=3[v480][v720][v1080];[v480]scale=854:480[v480out];[v720]scale=1280:720[v720out];[v1080]scale=1920:1080[v1080out]"

/-- Embedding of `tasks._build_hls_cmd`: the full ffmpeg token list for the multi-variant
HLS encode of `source` into `output_dir`. -/
def buildHlsCmd (source output_dir : String) (has_audio : Bool) :
    List String :=
  let t := hlsMapsAndAudio has_audio
  ["ffmpeg", "-i", source, "-filter_complex", hlsFilter]
    ++ t.1
    ++ ["-c:v", "libx264", "-crf", "23"]
    ++ t.2.2
    ++ ["-f", "hls", "-hls_time", "6", "-hls_playlist_type", "vod",
        "-hls_segment_filename",
        pyJoin (pyJoin output_dir "%v") "segment_%03d.ts",
        "-master_pl_name", "master.m3u8", "-var_stream_map", t.2.1,
        pyJoin (pyJoin output_dir "%v") "playlist.m3u8"]

/-- The external video table: maps a primary key to `some row` when the
record exists, where the row is its nullable `thumbnail_url` field. -/
def VideoDB := Int → Option (Option String)

/-- Embedding of `Video.objects.filter(pk=video_id).update(thumbnail_url=url)`: a targeted
partial update that sets only the thumbnail field, only on the matching
existing row. -/
def dbUpdateThumb (db : VideoDB) (video_id : Int) (url : String) : VideoDB :=
  fun i => if i = video_id then (db i).map (fun _ => some url) else db i

/-- The ffmpeg command built inline by `tasks.extract_thumbnail`. -/
def thumbnailCmd (source output_path : String) : List String :=
  ["ffmpeg", "-y", "-ss", "00:00:01", "-i", source, "-frames:v", "1",
   "-q:v", "2", output_path]

/-- Embedding of `tasks._thumbnail_output_path`: `MEDIA_ROOT/thumbnail/<basename>.jpg`,
creating the thumbnail directory (`exist_ok=True`); returns the updated
directory set and the output path. -/
def thumbnailOutputPath (fs : List String) (mediaRoot source : String) :
    List String × String :=
  let base_name := pyStem source
  let output_dir := pyJoin mediaRoot "thumbnail"
  let fs1 := makedirs fs output_dir
  (fs1, pyJoin output_dir (base_name ++ ".jpg"))

/-- Embedding of `tasks._thumbnail_url`: the public URL
`f"{MEDIA_BASE_URL.rstrip(sl)}/{MEDIA_URL.lstrip(sl)}{relpath(output_path, MEDIA_ROOT)}"`
with backslashes normalized to forward slashes. -/
def thumbnailUrl (mediaRoot mediaUrl mediaBaseUrl output_path : String) :
    String :=
  let relative_path := pyReplaceBackslash (pyRelpath output_path mediaRoot)
  let media_url := pyLstripSlash mediaUrl
  let base_url := pyRstripSlash mediaBaseUrl
  base_url ++ "/" ++ media_url ++ relative_path

/-- Embedding of `tasks.extract_thumbnail`: derive the output path (creating the thumbnail
directory), run ffmpeg, and only on success persist the computed URL to the
video record; on failure the error propagates and the database is untouched.
Returns (job outcome, directory set, database). -/
def extractThumbnail (run : RunOracle) (fs : List String) (db : VideoDB)
    (mediaRoot mediaUrl mediaBaseUrl : String) (video_id : Int)
    (source : String) :
    Except String Unit × List String × VideoDB :=
  let r := thumbnailOutputPath fs mediaRoot source
  match runFfmpeg run (thumbnailCmd source r.2) with
  | .error e => (.error e, r.1, db)
  | .ok _ =>
    (.ok (), r.1,
     dbUpdateThumb db video_id (thumbnailUrl mediaRoot mediaUrl mediaBaseUrl r.2))

/-- Embedding of `views._hls_dir_for_video`: the HLS directory derived from the video
file's path, `join(dirname(path), splitext(basename(path))[0] + "_hls")`. -/
def hlsDirForVideo (video_file_path : String) : String :=
  let base_dir := pyDirname video_file_path
  let base_name := pyStem video_file_path
  pyJoin base_dir (base_name ++ "_hls")

/-- Embedding of `views._segment_is_valid`: accept only a plain base name
(`os.path.basename(segment) == segment`) that ends with `".ts"`. -/
def segmentIsValid (segment : String) : Bool :=
  (pyBasename segment == segment) && pyEndsWith segment ".ts"

/-- The spec's directory-naming formula,
`{source_dir}/{source_basename_without_extension}_hls`. -/
def specHlsDirName (source : String) : String :=
  pyJoin (pyDirname source) (pyStem source ++ "_hls")

/-- A proper filename extension: a dot followed by a nonempty-or-empty run of
characters containing neither another dot nor a slash. -/
def IsExt (e : String) : Prop :=
  ∃ s : List Char, e.data = '.' :: s ∧ ∀ c ∈ s, c ≠ '.' ∧ c ≠ '/'

/-! Helper lemmas -/

theorem strAppend_assoc (a b c : String) : a ++ b ++ c = a ++ (b ++ c) :=
  String.ext (by simp [String.data_append])

theorem mem_makedirs (fs : List String) (p d : String) :
    d ∈ makedirs fs p ↔ d = p ∨ d ∈ fs := by
  by_cases h : p ∈ fs <;> simp only [makedirs, h, if_true, if_false,
    List.mem_cons]
  constructor
  · exact fun hd => Or.inr hd
  · rintro (rfl | hd) <;> assumption

theorem makedirs_eq_of_mem {fs : List String} {p : String} (h : p ∈ fs) :
    makedirs fs p = fs := by
  simp [makedirs, h]

theorem mem_makedirs_self (fs : List String) (p : String) :
    p ∈ makedirs fs p :=
  (mem_makedirs fs p p).mpr (Or.inl rfl)

theorem mem_makedirs_of_mem {fs : List String} {d : String} (p : String)
    (h : d ∈ fs) : d ∈ makedirs fs p :=
  (mem_makedirs fs p d).mpr (Or.inr h)

theorem pyBasename_eq_self_iff (p : String) :
    pyBasename p = p ↔ '/' ∉ p.data := by
  unfold pyBasename
  rw [String.ext_iff]
  show (p.data.reverse.takeWhile (· ≠ '/')).reverse = p.data ↔ _
  rw [List.reverse_eq_iff, List.takeWhile_eq_self_iff]
  simp only [decide_eq_true_eq, List.mem_reverse]
  constructor
  · intro h hc
    exact h '/' hc rfl
  · intro h x hx he
    exact h (he ▸ hx)

theorem pyBasename_append_noslash {e : String} (p : String)
    (he : '/' ∉ e.data) :
    (pyBasename (p ++ e)).data = (pyBasename p).data ++ e.data := by
  unfold pyBasename
  show ((p ++ e).data.reverse.takeWhile (· ≠ '/')).reverse = _
  rw [String.data_append, List.reverse_append,
    List.takeWhile_append_of_pos (by
      intro a ha
      simp only [decide_eq_true_eq]
      intro hav
      exact he (List.mem_reverse.mp (hav ▸ ha))),
    List.reverse_append, List.reverse_reverse]

theorem pyDirname_append_noslash {e : String} (p : String)
    (he : '/' ∉ e.data) : pyDirname (p ++ e) = pyDirname p := by
  unfold pyDirname
  rw [String.data_append, List.reverse_append,
    List.dropWhile_append_of_pos (by
      intro a ha
      simp only [decide_eq_true_eq]
      intro hav
      exact he (List.mem_reverse.mp (hav ▸ ha)))]

theorem pyStemName_append_ext (b s : List Char)
    (hs : ∀ c ∈ s, c ≠ '.' ∧ c ≠ '/') (hb : ∃ c ∈ b, c ≠ '.') :
    pyStemName (b ++ '.' :: s) = b := by
  unfold pyStemName
  have hrev : (b ++ '.' :: s).reverse = s.reverse ++ '.' :: b.reverse := by
    rw [List.reverse_append, List.reverse_cons, List.append_assoc]
    rfl
  rw [hrev, List.dropWhile_append_of_pos (by
      intro a ha
      simp only [decide_eq_true_eq]
      exact (hs a (List.mem_reverse.mp ha)).1),
    List.dropWhile_cons_of_neg (by simp)]
  show (if (b.reverse.any fun c => decide (c ≠ '.')) = true
    then b.reverse.reverse else b ++ '.' :: s) = b
  rw [if_pos (by
      rw [List.any_eq_true]
      obtain ⟨c, hc, hcd⟩ := hb
      exact ⟨c, List.mem_reverse.mpr hc, by simpa using hcd⟩),
    List.reverse_reverse]

theorem IsExt.noSlash {e : String} (he : IsExt e) : '/' ∉ e.data := by
  obtain ⟨s, hs, hforb⟩ := he
  rw [hs, List.mem_cons]
  rintro (h | h)
  · exact absurd h (by decide)
  · exact (hforb _ h).2 rfl

theorem mem_foldl_makedirs_of_mem {fs : List String} {d : String}
    (ps : List String) (h : d ∈ fs) : d ∈ ps.foldl makedirs fs := by
  induction ps generalizing fs with
  | nil => exact h
  | cons a ps ih => exact ih (mem_makedirs_of_mem a h)

theorem mem_foldl_makedirs_self (fs : List String) (ps : List String) :
    ∀ p ∈ ps, p ∈ ps.foldl makedirs fs := by
  induction ps generalizing fs with
  | nil => intro p hp; cases hp
  | cons a ps ih =>
    intro p hp
    rcases List.mem_cons.mp hp with rfl | hp
    · exact mem_foldl_makedirs_of_mem ps (mem_makedirs_self fs p)
    · exact ih (makedirs fs a) p hp

theorem foldl_makedirs_of_all_mem {fs : List String} (ps : List String)
    (h : ∀ p ∈ ps, p ∈ fs) : ps.foldl makedirs fs = fs := by
  induction ps with
  | nil => rfl
  | cons a ps ih =>
    show ps.foldl makedirs (makedirs fs a) = fs
    rw [makedirs_eq_of_mem (h a (List.mem_cons_self a ps))]
    exact ih fun p hp => h p (List.mem_cons_of_mem a hp)

theorem makedirs4_idem (fs : List String) (a b c d : String) :
    makedirs (makedirs (makedirs (makedirs
      (makedirs (makedirs (makedirs (makedirs fs a) b) c) d) a) b) c) d =
    makedirs (makedirs (makedirs (makedirs fs a) b) c) d := by
  have ha : a ∈ makedirs (makedirs (makedirs (makedirs fs a) b) c) d :=
    mem_makedirs_of_mem _ (mem_makedirs_of_mem _
      (mem_makedirs_of_mem _ (mem_makedirs_self fs a)))
  have hb : b ∈ makedirs (makedirs (makedirs (makedirs fs a) b) c) d :=
    mem_makedirs_of_mem _ (mem_makedirs_of_mem _
      (mem_makedirs_self (makedirs fs a) b))
  have hc : c ∈ makedirs (makedirs (makedirs (makedirs fs a) b) c) d :=
    mem_makedirs_of_mem _ (mem_makedirs_self (makedirs (makedirs fs a) b) c)
  have hd : d ∈ makedirs (makedirs (makedirs (makedirs fs a) b) c) d :=
    mem_makedirs_self (makedirs (makedirs (makedirs fs a) b) c) d
  rw [makedirs_eq_of_mem ha, makedirs_eq_of_mem hb, makedirs_eq_of_mem hc,
    makedirs_eq_of_mem hd]

theorem pyStem_append_ext {e : String} (p : String) (he : IsExt e)
    (hp : ∃ c ∈ (pyBasename p).data, c ≠ '.') :
    pyStem (p ++ e) = ⟨(pyBasename p).data⟩ := by
  obtain ⟨s, hs, hforb⟩ := he
  have henoslash : '/' ∉ e.data := by
    rw [hs, List.mem_cons]
    rintro (h | h)
    · exact absurd h (by decide)
    · exact (hforb _ h).2 rfl
  unfold pyStem
  rw [pyBasename_append_noslash p henoslash, hs,
    pyStemName_append_ext _ _ hforb hp]

/-! Claim theorems -/

/-- C1: for every source path, output directory and audio flag, the command
list built by `_build_hls_cmd` equals the reference command: the input is the
source; a `filter_complex` splits the video into three streams scaled to
854x480, 1280x720 and 1920x1080; without audio the maps reference only the
three scaled streams, no audio-codec options appear, and the variant map is
`v:0,name:480p v:1,name:720p v:2,name:1080p`; with audio each video map is
followed by the optional audio map `0:a:0?`, the options `-c:a aac -ar 48000`
appear, and the variant map binds `a:0`, `a:1`, `a:2` to the variants named
480p, 720p, 1080p. -/
theorem buildHlsCmd_reference (source output_dir : String) :
    buildHlsCmd source output_dir false =
      ["ffmpeg", "-i", source, "-filter_complex",
       "[0:v]split=3[v480][v720][v1080];[v480]scale=854:480[v480out];[v720]scale=1280:720[v720out];[v1080]scale=1920:1080[v1080out]",
       "-map", "[v480out]", "-map", "[v720out]", "-map", "[v1080out]",
       "-c:v", "libx264", "-crf", "23",
       "-f", "hls", "-hls_time", "6", "-hls_playlist_type", "vod",
       "-hls_segment_filename",
       pyJoin (pyJoin output_dir "%v") "segment_%03d.ts",
       "-master_pl_name", "master.m3u8",
       "-var_stream_map", "v:0,name:480p v:1,name:720p v:2,name:1080p",
       pyJoin (pyJoin output_dir "%v") "playlist.m3u8"]
    ∧ buildHlsCmd source output_dir true =
      ["ffmpeg", "-i", source, "-filter_complex",
       "[0:v]split=3[v480][v720][v1080];[v480]scale=854:480[v480out];[v720]scale=1280:720[v720out];[v1080]scale=1920:1080[v1080out]",
       "-map", "[v480out]", "-map", "0:a:0?", "-map", "[v720out]",
       "-map", "0:a:0?", "-map", "[v1080out]", "-map", "0:a:0?",
       "-c:v", "libx264", "-crf", "23", "-c:a", "aac", "-ar", "48000",
       "-f", "hls", "-hls_time", "6", "-hls_playlist_type", "vod",
       "-hls_segment_filename",
       pyJoin (pyJoin output_dir "%v") "segment_%03d.ts",
       "-master_pl_name", "master.m3u8",
       "-var_stream_map", "v:0,a:0,name:480p v:1,a:1,name:720p v:2,a:2,name:1080p",
       pyJoin (pyJoin output_dir "%v") "playlist.m3u8"] :=
  ⟨rfl, rfl⟩

/-- C2: `_run_ffmpeg` raises exactly when the subprocess exits non-zero — it
returns `()` on exit status 0 and otherwise the error message
`ffmpeg failed with code {code}: {stderr.strip()}`, which contains both the
exit code and the trimmed error output as substrings. -/
theorem runFfmpeg_spec (run : RunOracle) (cmd : List String) :
    runFfmpeg run cmd =
      (if (run cmd).returncode = 0 then .ok ()
       else .error ("ffmpeg failed with code " ++ toString (run cmd).returncode
         ++ ": " ++ pyStrip (run cmd).stderr))
    ∧ (∃ a b, "ffmpeg failed with code " ++ toString (run cmd).returncode
         ++ ": " ++ pyStrip (run cmd).stderr
         = a ++ toString (run cmd).returncode ++ b)
    ∧ (∃ c, "ffmpeg failed with code " ++ toString (run cmd).returncode
         ++ ": " ++ pyStrip (run cmd).stderr
         = c ++ pyStrip (run cmd).stderr) := by
  refine ⟨?_, ⟨"ffmpeg failed with code ", ": " ++ pyStrip (run cmd).stderr, ?_⟩,
    ⟨"ffmpeg failed with code " ++ toString (run cmd).returncode ++ ": ", rfl⟩⟩
  · unfold runFfmpeg
    by_cases h : (run cmd).returncode = 0 <;> simp [h]
  · rw [strAppend_assoc]

/-- C3: `_has_audio` is true iff the probe subprocess exits with status 0 and
its stdout is non-empty after stripping whitespace; every probe outcome yields
a boolean (failures are mapped to `false`, never raised). -/
theorem hasAudio_iff (run : RunOracle) (source : String) :
    hasAudio run source = true ↔
      (run (probeCmd source)).returncode = 0 ∧
        pyStrip (run (probeCmd source)).stdout ≠ "" := by
  simp [hasAudio]

/-- C6: command construction is deterministic — two calls of
`_build_hls_cmd` on identical `(source, output_dir, has_audio)` inputs return
identical argument lists. -/
theorem buildHlsCmd_deterministic (s₁ o₁ : String) (a₁ : Bool)
    (s₂ o₂ : String) (a₂ : Bool) (hs : s₁ = s₂) (ho : o₁ = o₂)
    (ha : a₁ = a₂) : buildHlsCmd s₁ o₁ a₁ = buildHlsCmd s₂ o₂ a₂ := by
  rw [hs, ho, ha]

/-- Witness for C6 at a concrete input. -/
theorem buildHlsCmd_deterministic_witness :
    buildHlsCmd "/v/clip.mp4" "/v/clip_hls" true =
      buildHlsCmd "/v/clip.mp4" "/v/clip_hls" true :=
  buildHlsCmd_deterministic "/v/clip.mp4" "/v/clip_hls" true
    "/v/clip.mp4" "/v/clip_hls" true rfl rfl rfl

/-- C7: the thumbnail URL is the base URL with trailing slashes removed,
`"/"`, the media URL prefix with leading slashes removed, and the output path
relative to the media root (separators normalized to forward slashes); on the
spec's concrete example it is `https://cdn.example/media/thumbnail/clip.jpg`. -/
theorem thumbnailUrl_spec (mediaRoot mediaUrl mediaBaseUrl output_path : String) :
    thumbnailUrl mediaRoot mediaUrl mediaBaseUrl output_path =
      pyRstripSlash mediaBaseUrl ++ "/" ++ pyLstripSlash mediaUrl
        ++ pyReplaceBackslash (pyRelpath output_path mediaRoot)
    ∧ thumbnailUrl "/data/media" "/media/" "https://cdn.example"
        "/data/media/thumbnail/clip.jpg"
      = "https://cdn.example/media/thumbnail/clip.jpg" :=
  ⟨rfl, by decide⟩

/-- C8: segment-name validation accepts a name iff it has no directory
component (no `'/'`) and ends with `".ts"`; in particular `segment_001.ts`
is accepted while `../secret.txt`, `sub/segment.ts` and `segment.m4s` are
rejected. -/
theorem segmentIsValid_spec (seg : String) :
    (segmentIsValid seg = true ↔
      '/' ∉ seg.data ∧ pyEndsWith seg ".ts" = true)
    ∧ segmentIsValid "segment_001.ts" = true
    ∧ segmentIsValid "../secret.txt" = false
    ∧ segmentIsValid "sub/segment.ts" = false
    ∧ segmentIsValid "segment.m4s" = false := by
  refine ⟨?_, by decide, by decide, by decide, by decide⟩
  unfold segmentIsValid
  rw [Bool.and_eq_true, beq_iff_eq, pyBasename_eq_self_iff]

/-- C10: the serving layer's `_hls_dir_for_video` computes, for every video
file path, exactly the directory that the transcode job's
`_prepare_hls_dirs` derives and returns for the same path, whatever the
starting filesystem state. -/
theorem hlsDir_serving_agrees_job (fs : List String) (p : String) :
    hlsDirForVideo p = (prepareHlsDirs fs p).2 :=
  rfl

/-- C4: `_prepare_hls_dirs` returns the directory
`{source_dir}/{basename_without_extension}_hls`, the directories after the
run are exactly the starting ones plus that directory and its `480p`, `720p`
and `1080p` subdirectories, and the derived name is independent of the
source's original extension. -/
theorem prepareHlsDirs_layout :
    (∀ (fs : List String) (source : String),
      (prepareHlsDirs fs source).2 = specHlsDirName source
      ∧ ∀ d, d ∈ (prepareHlsDirs fs source).1 ↔
          d ∈ fs ∨ d = specHlsDirName source
            ∨ d = pyJoin (specHlsDirName source) "480p"
            ∨ d = pyJoin (specHlsDirName source) "720p"
            ∨ d = pyJoin (specHlsDirName source) "1080p")
    ∧ (∀ (fs : List String) (p e₁ e₂ : String), IsExt e₁ → IsExt e₂ →
        (∃ c ∈ (pyBasename p).data, c ≠ '.') →
        (prepareHlsDirs fs (p ++ e₁)).2 = (prepareHlsDirs fs (p ++ e₂)).2) := by
  constructor
  · intro fs source
    refine ⟨rfl, fun d => ?_⟩
    simp only [prepareHlsDirs, specHlsDirName, mem_makedirs]
    tauto
  · intro fs p e₁ e₂ h₁ h₂ hp
    calc (prepareHlsDirs fs (p ++ e₁)).2
        = pyJoin (pyDirname (p ++ e₁)) (pyStem (p ++ e₁) ++ "_hls") := rfl
      _ = pyJoin (pyDirname p) ((⟨(pyBasename p).data⟩ : String) ++ "_hls") := by
          rw [pyDirname_append_noslash p h₁.noSlash, pyStem_append_ext p h₁ hp]
      _ = pyJoin (pyDirname (p ++ e₂)) (pyStem (p ++ e₂) ++ "_hls") := by
          rw [pyDirname_append_noslash p h₂.noSlash, pyStem_append_ext p h₂ hp]
      _ = (prepareHlsDirs fs (p ++ e₂)).2 := rfl

/-- Witness for C4 at a concrete input: the derived directory for
`/media/videos/clip.mp4`, and extension independence between `.mp4` and
`.webm`. -/
theorem prepareHlsDirs_layout_witness :
    (prepareHlsDirs [] "/media/videos/clip.mp4").2 = "/media/videos/clip_hls"
    ∧ (prepareHlsDirs [] ("/media/videos/clip" ++ ".mp4")).2 =
        (prepareHlsDirs [] ("/media/videos/clip" ++ ".webm")).2 := by
  constructor
  · rw [(prepareHlsDirs_layout.1 [] "/media/videos/clip.mp4").1]
    decide
  · exact prepareHlsDirs_layout.2 [] "/media/videos/clip" ".mp4" ".webm"
      ⟨['m', 'p', '4'], by decide, by decide⟩
      ⟨['w', 'e', 'b', 'm'], by decide, by decide⟩
      (by decide)

/-- C5: running `_prepare_hls_dirs` twice from any starting directory set
leaves exactly the state and return value of one run, and re-creating the
already-existing directories raises no error (the second run is a no-op). -/
theorem prepareHlsDirs_idempotent (fs : List String) (source : String) :
    prepareHlsDirs ((prepareHlsDirs fs source).1) source =
      prepareHlsDirs fs source := by
  simp only [prepareHlsDirs]
  rw [makedirs4_idem]

/-- C9: the thumbnail job is atomic with respect to the video record — it
succeeds exactly when the ffmpeg subprocess exits with status 0, in which
case the computed URL is persisted by a targeted update; on subprocess
failure the job raises and the database is returned unchanged. -/
theorem extractThumbnail_atomic (run : RunOracle) (fs : List String)
    (db : VideoDB) (mediaRoot mediaUrl mediaBaseUrl : String)
    (video_id : Int) (source : String) :
    ((extractThumbnail run fs db mediaRoot mediaUrl mediaBaseUrl video_id
        source).1 = .ok ()
      ↔ (run (thumbnailCmd source
          (thumbnailOutputPath fs mediaRoot source).2)).returncode = 0)
    ∧ (extractThumbnail run fs db mediaRoot mediaUrl mediaBaseUrl video_id
        source).2.2 =
        (if (run (thumbnailCmd source
              (thumbnailOutputPath fs mediaRoot source).2)).returncode = 0
         then dbUpdateThumb db video_id (thumbnailUrl mediaRoot mediaUrl
           mediaBaseUrl (thumbnailOutputPath fs mediaRoot source).2)
         else db) := by
  by_cases h : (run (thumbnailCmd source
      (thumbnailOutputPath fs mediaRoot source).2)).returncode = 0 <;>
    simp [extractThumbnail, runFfmpeg, h]
